import Mathlib

/-!
Verification of the distro-info release-lifecycle library.

The library (`src/lib.rs`) models Linux distribution releases as records
with optional lifecycle dates and answers date-scoped queries over an
ordered table of such records.  We embed the record type, its point-in-time
predicates, the table queries, and the CSV-row loading path, and prove the
specified properties about them.

Dates: the source uses `chrono::NaiveDate`, a totally ordered calendar-date
type (proleptic Gregorian, years `-262144..=262143`); the only operations
the library applies to dates are comparisons (`<`, `<=`, `>=`) and `max`.
We embed a calendar date with year `Y` (an integer) and month/day `M`/`D`
as the integer `Y*10000 + M*100 + D`.  Since `1 ≤ M ≤ 12` and
`1 ≤ D ≤ 31`, dates of distinct years differ by at least
`10000 - 1231 + 101 > 0` in the year's favour, so the encoding is strictly
monotone in the lexicographic (chronological) order: it is an order
isomorphism onto its image and all comparisons and `max` are preserved
exactly.
-/

abbrev Date := Int

/-- `DistroRelease` from `src/lib.rs`: one release of a distribution, with
its three identifying strings and four optional lifecycle dates. -/
structure DistroRelease where
  version : String
  codename : String
  series : String
  created : Option Date
  release : Option Date
  eol : Option Date
  eol_server : Option Date
deriving DecidableEq, Repr

/-- `DistroRelease::created_at`: `created` is set and `date >= created`. -/
def DistroRelease.created_at (r : DistroRelease) (date : Date) : Bool :=
  match r.created with
  | some created => decide (date ≥ created)
  | none => false

/-- `DistroRelease::released_at`: `release` is set and `date >= release`. -/
def DistroRelease.released_at (r : DistroRelease) (date : Date) : Bool :=
  match r.release with
  | some release => decide (date ≥ release)
  | none => false

/-- `DistroRelease::supported_at`: created at `date`, and `eol` is set, and
`date` is at most `eol` (or `max eol eol_server` when `eol_server` is set). -/
def DistroRelease.supported_at (r : DistroRelease) (date : Date) : Bool :=
  r.created_at date &&
    match r.eol with
    | some eol =>
      match r.eol_server with
      | some eol_server => decide (date ≤ max eol eol_server)
      | none => decide (date ≤ eol)
    | none => false

/-- The release table behind the `DistroInfo` trait of `src/lib.rs`: an
ordered list of releases (`releases()` / `from_vec`).  The two trait
implementors (`UbuntuDistroInfo`, `DebianDistroInfo`) differ only in the
distribution name and CSV path, which no query logic depends on. -/
structure DistroInfo where
  releases : List DistroRelease
deriving DecidableEq, Repr

/-- `DistroInfo::all_at`: releases created at the given date, selected by an
inline match on the `created` field (the source does not call `created_at`
here). -/
def DistroInfo.all_at (t : DistroInfo) (date : Date) : List DistroRelease :=
  t.releases.filter fun distro_release =>
    match distro_release.created with
    | some created => decide (date ≥ created)
    | none => false

/-- `DistroInfo::released`: releases with `released_at date`. -/
def DistroInfo.released (t : DistroInfo) (date : Date) : List DistroRelease :=
  t.releases.filter fun distro_release => distro_release.released_at date

/-- `DistroInfo::supported`: releases with `supported_at date`. -/
def DistroInfo.supported (t : DistroInfo) (date : Date) : List DistroRelease :=
  t.releases.filter fun distro_release => distro_release.supported_at date

/-- `DistroInfo::unsupported`: `released date` filtered by not
`supported_at date`. -/
def DistroInfo.unsupported (t : DistroInfo) (date : Date) : List DistroRelease :=
  (t.released date).filter fun distro_release => !distro_release.supported_at date

/-- `DistroInfo::devel`: `all_at date` filtered by an inline match on the
`release` field requiring `date < release`. -/
def DistroInfo.devel (t : DistroInfo) (date : Date) : List DistroRelease :=
  (t.all_at date).filter fun distro_release =>
    match distro_release.release with
    | some release => decide (date < release)
    | none => false

/-- `DistroInfo::latest`: last element of `supported date` re-filtered by
`released_at date` (`.last().copied()` on the filtered vector). -/
def DistroInfo.latest (t : DistroInfo) (date : Date) : Option DistroRelease :=
  ((t.supported date).filter fun distro_release =>
    distro_release.released_at date).getLast?

/- ## CSV loading (`DistroInfo::from_csv_reader`)

A CSV record is embedded as the list of its fields; `record.get(i)` is
`List.get?`, returning `none` exactly when the row has at most `i` fields
(the reader is constructed with `flexible(true)`, so short rows reach this
code).  CSV-reader transport errors (`record?`) are outside the embedding:
`from_csv_reader` receives the materialised rows. -/

/-- Proleptic-Gregorian leap-year rule, as chrono's `YearFlags::from_year`
implements it (divisibility tests, which are sign-independent, so the
Euclidean `%` of `Int` agrees with Rust's truncated `%` here). -/
def isLeapYear (y : Int) : Bool :=
  y % 4 == 0 && (y % 100 != 0 || y % 400 == 0)

def daysInMonth (y : Int) (m : Nat) : Nat :=
  if m = 2 then (if isLeapYear y then 29 else 28)
  else if m = 4 ∨ m = 6 ∨ m = 9 ∨ m = 11 then 30
  else 31

/-- The Unicode `White_Space` characters, the set trimmed by Rust's
`str::trim_start` (`char::is_whitespace`), which chrono applies before
every numeric field. -/
def isRustWhitespace (c : Char) : Bool :=
  decide (c.toNat = 9 ∨ c.toNat = 10 ∨ c.toNat = 11 ∨ c.toNat = 12 ∨
    c.toNat = 13 ∨ c.toNat = 32 ∨ c.toNat = 133 ∨ c.toNat = 160 ∨
    c.toNat = 5760 ∨ (8192 ≤ c.toNat ∧ c.toNat ≤ 8202) ∨ c.toNat = 8232 ∨
    c.toNat = 8233 ∨ c.toNat = 8239 ∨ c.toNat = 8287 ∨ c.toNat = 12288)

def trimWs (cs : List Char) : List Char :=
  cs.dropWhile isRustWhitespace

/-- chrono's `scan::number(s, 1, max)`: consume greedily up to `maxw`
leading ASCII digits, at least one, returning the value and the unconsumed
rest of the input.  (chrono errors on `i64` overflow; here the value is an
unbounded `Nat` and such oversized years are rejected by the range check of
`fromYmd` instead — the accept/reject verdict is the same.) -/
def scanNumber (cs : List Char) (maxw : Nat) : Option (Nat × List Char) :=
  let digits := (cs.takeWhile Char.isDigit).take maxw
  if digits = [] then none
  else some (digits.foldl (fun n c => n * 10 + (c.toNat - 48)) 0,
    cs.drop digits.length)

/-- `NaiveDate::from_ymd_opt`: the year must lie in chrono's
`MIN_YEAR..=MAX_YEAR` range `-262144..=262143`, the month in `1..=12`, the
day in the proleptic-Gregorian month; the result is the
`Y*10000 + M*100 + D` encoding. -/
def fromYmd (y : Int) (m d : Nat) : Option Date :=
  if -262144 ≤ y ∧ y ≤ 262143 ∧ 1 ≤ m ∧ m ≤ 12 ∧ 1 ≤ d ∧
      d ≤ daysInMonth y m
  then some (y * 10000 + (m : Int) * 100 + (d : Int))
  else none

/-- Model of `chrono::NaiveDate::parse_from_str(field, "%Y-%m-%d")`
(chrono 0.4): each numeric field first trims leading whitespace; `%Y` is a
signed field — an explicit `+` or `-` admits arbitrarily many digits, no
sign admits at most 4 — while `%m` and `%d` take at most 2 digits; the two
dashes are matched as exact literals with no trimming; nothing may remain
after the day; and the three numbers must form a valid `fromYmd` date. -/
def parseDate (s : String) : Option Date :=
  let yearScan :=
    match trimWs s.toList with
    | '-' :: rest => (scanNumber rest rest.length).map fun p => (-(p.1 : Int), p.2)
    | '+' :: rest => (scanNumber rest rest.length).map fun p => ((p.1 : Int), p.2)
    | cs => (scanNumber cs 4).map fun p => ((p.1 : Int), p.2)
  match yearScan with
  | none => none
  | some (y, r1) =>
    match r1 with
    | '-' :: r2 =>
      match scanNumber (trimWs r2) 2 with
      | none => none
      | some (m, r3) =>
        match r3 with
        | '-' :: r4 =>
          match scanNumber (trimWs r4) 2 with
          | none => none
          | some (d, r5) => if r5 = [] then fromYmd y m d else none
        | _ => none
    | _ => none

/-- The `parse_required_str` closure: fails exactly when the field is
missing from the row (`ok_or` on the `Option`); a present field of any
content, including the empty string, is accepted. -/
def parse_required_str (field : Option String) : Except String String :=
  match field with
  | some s => Except.ok s
  | none => Except.error "failed to read required option"

/-- `record.get(i).map(parse_date).transpose()?`: a missing field is `none`;
a present field must parse as a date, else the `?` propagates the error. -/
def parse_date_field (field : Option String) : Except String (Option Date) :=
  match field with
  | none => Except.ok none
  | some s =>
    match parseDate s with
    | some d => Except.ok (some d)
    | none => Except.error "failed to parse date"

/-- The body of the `from_csv_reader` loop for one record: the seven
`?`-propagated field parses, in source order, feeding `DistroRelease::new`. -/
def parse_record (record : List String) : Except String DistroRelease :=
  match parse_required_str (record.get? 0) with
  | Except.error e => Except.error e
  | Except.ok version =>
  match parse_required_str (record.get? 1) with
  | Except.error e => Except.error e
  | Except.ok codename =>
  match parse_required_str (record.get? 2) with
  | Except.error e => Except.error e
  | Except.ok series =>
  match parse_date_field (record.get? 3) with
  | Except.error e => Except.error e
  | Except.ok created =>
  match parse_date_field (record.get? 4) with
  | Except.error e => Except.error e
  | Except.ok release =>
  match parse_date_field (record.get? 5) with
  | Except.error e => Except.error e
  | Except.ok eol =>
  match parse_date_field (record.get? 6) with
  | Except.error e => Except.error e
  | Except.ok eol_server =>
    Except.ok ⟨version, codename, series, created, release, eol, eol_server⟩

/-- The `for record in rdr.records()` loop: rows parsed in order, the first
failing row aborting the whole load. -/
def parse_records : List (List String) → Except String (List DistroRelease)
  | [] => Except.ok []
  | row :: rest =>
    match parse_record row with
    | Except.error e => Except.error e
    | Except.ok r =>
      match parse_records rest with
      | Except.error e => Except.error e
      | Except.ok rs => Except.ok (r :: rs)

/-- `DistroInfo::from_csv_reader`: parse all rows, then `from_vec`. -/
def DistroInfo.from_csv_reader (records : List (List String)) :
    Except String DistroInfo :=
  match parse_records records with
  | Except.error e => Except.error e
  | Except.ok releases => Except.ok ⟨releases⟩

/-- The release used by the repository's own `supported_at`/`released_at`
tests: created and released 2018-06-14, eol 2018-06-16, server eol
2018-06-14. -/
def exampleRelease : DistroRelease :=
  { version := "98.04 LTS", codename := "codename", series := "series",
    created := some 20180614, release := some 20180614,
    eol := some 20180616, eol_server := some 20180614 }

/-- A release that has been created and has a support window at
2018-06-14 but whose release date lies in the future (patterned on a
development series such as cosmic). -/
def develRelease : DistroRelease :=
  { version := "18.10", codename := "Cosmic Cuttlefish", series := "cosmic",
    created := some 20180426, release := some 20181018,
    eol := some 20190718, eol_server := none }

/-- C1: for every record and date, `supported_at` holds exactly when the
record is created at the date, `eol` is set, and the date is at most `eol`
(or `max eol eol_server` when `eol_server` is set); with `eol` unset it is
always false, and the repository's test record behaves as specified on
2018-06-13/14/17. -/
theorem supported_at_spec (r : DistroRelease) (date : Date) :
    (r.supported_at date = true ↔
      r.created_at date = true ∧
        ∃ eol, r.eol = some eol ∧
          date ≤ (match r.eol_server with
                  | some eol_server => max eol eol_server
                  | none => eol)) ∧
    (r.eol = none → r.supported_at date = false) ∧
    exampleRelease.supported_at 20180613 = false ∧
    exampleRelease.supported_at 20180614 = true ∧
    exampleRelease.supported_at 20180617 = false := by
  refine ⟨?_, ?_, by decide, by decide, by decide⟩
  · unfold DistroRelease.supported_at
    cases heol : r.eol with
    | none => simp [heol]
    | some eol =>
      cases hes : r.eol_server with
      | none => simp [heol, hes]
      | some es => simp [heol, hes]
  · intro h
    unfold DistroRelease.supported_at
    simp [h]

theorem supported_at_spec_witness :
    (exampleRelease.supported_at 20180614 = true ↔
      exampleRelease.created_at 20180614 = true ∧
        ∃ eol, exampleRelease.eol = some eol ∧
          20180614 ≤ (match exampleRelease.eol_server with
                      | some eol_server => max eol eol_server
                      | none => eol)) ∧
    (exampleRelease.eol = none → exampleRelease.supported_at 20180614 = false) ∧
    exampleRelease.supported_at 20180613 = false ∧
    exampleRelease.supported_at 20180614 = true ∧
    exampleRelease.supported_at 20180617 = false :=
  supported_at_spec exampleRelease 20180614

/-- C7: `released_at` is monotone non-decreasing in the date: once true it
stays true for every later date; and for any record with a release date it
is true at every date from the release date on, with no reference to the
end-of-life fields — in particular the repository's test record is still
released on 2018-06-17, past its 2018-06-16 eol. -/
theorem released_at_monotone (r : DistroRelease) (d1 d2 : Date) (h : d1 ≤ d2) :
    (r.released_at d1 = true → r.released_at d2 = true) ∧
    (∀ rel, r.release = some rel → rel ≤ d2 → r.released_at d2 = true) ∧
    exampleRelease.released_at 20180617 = true := by
  refine ⟨?_, ?_, by decide⟩
  · unfold DistroRelease.released_at
    cases hrel : r.release with
    | none => simp
    | some rel =>
      simp only [decide_eq_true_eq, ge_iff_le]
      exact fun h1 => le_trans h1 h
  · intro rel hrel hle
    unfold DistroRelease.released_at
    rw [hrel]
    simpa using hle

theorem released_at_monotone_witness :
    20180614 ≤ 20180617 ∧
      ((exampleRelease.released_at 20180614 = true →
          exampleRelease.released_at 20180617 = true) ∧
        (∀ rel, exampleRelease.release = some rel → rel ≤ 20180617 →
          exampleRelease.released_at 20180617 = true) ∧
        exampleRelease.released_at 20180617 = true) :=
  ⟨by decide, released_at_monotone exampleRelease 20180614 20180617 (by decide)⟩

/-- C8: `supported_at` does not imply `released_at`: the development-series
record is supported at 2018-06-14 (created, inside its eol window) but not
yet released there, and it consequently appears in `supported` of a table
containing it — despite that query's doc comment saying "released and
supported". -/
theorem supported_at_not_released_at :
    develRelease.supported_at 20180614 = true ∧
    develRelease.released_at 20180614 = false ∧
    develRelease ∈ (DistroInfo.mk [develRelease]).supported 20180614 ∧
    develRelease ∉ (DistroInfo.mk [develRelease]).released 20180614 := by
  refine ⟨by decide, by decide, ?_, ?_⟩
  · simp [DistroInfo.supported, List.mem_filter]
    decide
  · simp [DistroInfo.released, List.mem_filter]
    decide

/-- C9: `all_at` selects exactly the records with `created_at`: the inline
match on `created` inside `all_at` is extensionally the `created_at`
predicate, so `all_at date` is literally `releases` filtered by
`created_at date`, and membership in it is membership in the table plus
`created_at`. -/
theorem all_at_eq_created_at_filter (t : DistroInfo) (date : Date) :
    t.all_at date =
      t.releases.filter (fun distro_release => distro_release.created_at date) ∧
    ∀ r : DistroRelease,
      r ∈ t.all_at date ↔ r ∈ t.releases ∧ r.created_at date = true := by
  constructor
  · rfl
  · intro r
    unfold DistroInfo.all_at
    rw [List.mem_filter]
    unfold DistroRelease.created_at
    exact Iff.rfl

theorem all_at_eq_created_at_filter_witness :
    ((DistroInfo.mk [exampleRelease, develRelease]).all_at 20180513 =
      (DistroInfo.mk [exampleRelease, develRelease]).releases.filter
        (fun distro_release => distro_release.created_at 20180513)) ∧
    ∀ r : DistroRelease,
      r ∈ (DistroInfo.mk [exampleRelease, develRelease]).all_at 20180513 ↔
        r ∈ (DistroInfo.mk [exampleRelease, develRelease]).releases ∧
          r.created_at 20180513 = true :=
  all_at_eq_created_at_filter (DistroInfo.mk [exampleRelease, develRelease]) 20180513

/-- C10: `devel date` and `released date` are disjoint: a record of
`devel date` has a set release date strictly after `date`, hence
`released_at date` is false and it is not in `released date`. -/
theorem devel_released_disjoint (t : DistroInfo) (date : Date)
    (r : DistroRelease) (h : r ∈ t.devel date) :
    r.released_at date = false ∧ r ∉ t.released date := by
  unfold DistroInfo.devel at h
  rw [List.mem_filter] at h
  obtain ⟨-, hcond⟩ := h
  have hfalse : r.released_at date = false := by
    unfold DistroRelease.released_at
    cases hrel : r.release with
    | none => rfl
    | some rel =>
      rw [hrel] at hcond
      simp only [decide_eq_true_eq] at hcond
      simpa using not_le.mpr hcond
  refine ⟨hfalse, ?_⟩
  intro hmem
  unfold DistroInfo.released at hmem
  rw [List.mem_filter] at hmem
  rw [hmem.2] at hfalse
  exact Bool.noConfusion hfalse

theorem devel_released_disjoint_witness :
    develRelease.released_at 20180614 = false ∧
      develRelease ∉ (DistroInfo.mk [develRelease]).released 20180614 :=
  devel_released_disjoint (DistroInfo.mk [develRelease]) 20180614 develRelease
    (by simp [DistroInfo.devel, DistroInfo.all_at, List.mem_filter]; decide)

/-- A record with `release` permanently absent and no eol, patterned on the
sid row of debian.csv (whose `version` field is present but empty). -/
def unreleasedRelease : DistroRelease :=
  { version := "", codename := "Sid", series := "sid",
    created := some 19930816, release := none, eol := none, eol_server := none }

/-- C4: `latest date` is the last element of `supported date` re-filtered by
`released_at date`, and when no record of the table is both supported and
released at the date it is `none` — an ordinary value, not an error. -/
theorem latest_spec (t : DistroInfo) (date : Date) :
    t.latest date =
      ((t.supported date).filter fun distro_release =>
        distro_release.released_at date).getLast? ∧
    ((∀ r ∈ t.releases,
        ¬(r.supported_at date = true ∧ r.released_at date = true)) →
      t.latest date = none) := by
  refine ⟨rfl, ?_⟩
  intro h
  unfold DistroInfo.latest
  have hnil : ((t.supported date).filter fun distro_release =>
      distro_release.released_at date) = [] := by
    rw [List.filter_eq_nil_iff]
    intro r hr
    unfold DistroInfo.supported at hr
    rw [List.mem_filter] at hr
    intro hrel
    exact h r hr.1 ⟨hr.2, by simpa using hrel⟩
  rw [hnil]
  rfl

theorem latest_spec_witness :
    (∀ r ∈ (DistroInfo.mk [develRelease]).releases,
        ¬(r.supported_at 20180614 = true ∧ r.released_at 20180614 = true)) ∧
    (DistroInfo.mk [develRelease]).latest 20180614 = none :=
  ⟨by decide, (latest_spec (DistroInfo.mk [develRelease]) 20180614).2 (by decide)⟩

/-- C5: membership in `devel date` is exactly: in the table, created at the
date, and `release` set with the date strictly before it; a record whose
`release` is absent is in `devel d2` for no date `d2` at all, even while
created. -/
theorem devel_spec (t : DistroInfo) (date : Date) (r : DistroRelease) :
    (r ∈ t.devel date ↔
      r ∈ t.releases ∧ r.created_at date = true ∧
        ∃ rel, r.release = some rel ∧ date < rel) ∧
    (r.release = none → ∀ d2 : Date, r ∉ t.devel d2) := by
  constructor
  · unfold DistroInfo.devel DistroInfo.all_at
    rw [List.mem_filter, List.mem_filter]
    cases hrel : r.release with
    | none => simp [hrel, DistroRelease.created_at]
    | some rel => simp [hrel, DistroRelease.created_at, and_assoc]
  · intro hnone d2 hmem
    unfold DistroInfo.devel at hmem
    rw [List.mem_filter] at hmem
    have h2 := hmem.2
    simp [hnone] at h2

theorem devel_spec_witness :
    (unreleasedRelease ∈ (DistroInfo.mk [unreleasedRelease]).devel 20180614 ↔
      unreleasedRelease ∈ (DistroInfo.mk [unreleasedRelease]).releases ∧
        unreleasedRelease.created_at 20180614 = true ∧
        ∃ rel, unreleasedRelease.release = some rel ∧ 20180614 < rel) ∧
    (unreleasedRelease.release = none →
      ∀ d2 : Date,
        unreleasedRelease ∉ (DistroInfo.mk [unreleasedRelease]).devel d2) :=
  devel_spec (DistroInfo.mk [unreleasedRelease]) 20180614 unreleasedRelease

/-- C6: `unsupported date` and `supported date` are disjoint — a member of
the former has `supported_at date` false, so it cannot be in the latter —
and `released date` is exactly the union of the released members of
`supported date` with `unsupported date`. -/
theorem unsupported_partition (t : DistroInfo) (date : Date) (r : DistroRelease) :
    (r ∈ t.unsupported date →
      r.supported_at date = false ∧ r ∉ t.supported date) ∧
    (r ∈ t.released date ↔
      (r ∈ t.supported date ∧ r.released_at date = true) ∨
        r ∈ t.unsupported date) := by
  constructor
  · intro h
    unfold DistroInfo.unsupported at h
    rw [List.mem_filter] at h
    have hsup : r.supported_at date = false := by simpa using h.2
    refine ⟨hsup, ?_⟩
    intro hmem
    unfold DistroInfo.supported at hmem
    rw [List.mem_filter] at hmem
    rw [hmem.2] at hsup
    exact Bool.noConfusion hsup
  · constructor
    · intro h
      unfold DistroInfo.released at h
      rw [List.mem_filter] at h
      by_cases hs : r.supported_at date = true
      · left
        refine ⟨?_, h.2⟩
        unfold DistroInfo.supported
        rw [List.mem_filter]
        exact ⟨h.1, hs⟩
      · right
        have hs' : r.supported_at date = false := by
          revert hs
          cases r.supported_at date <;> simp
        unfold DistroInfo.unsupported DistroInfo.released
        rw [List.mem_filter, List.mem_filter]
        exact ⟨h, by simp [hs']⟩
    · intro h
      rcases h with ⟨hmem, hrel⟩ | hmem
      · unfold DistroInfo.supported at hmem
        rw [List.mem_filter] at hmem
        unfold DistroInfo.released
        rw [List.mem_filter]
        exact ⟨hmem.1, hrel⟩
      · unfold DistroInfo.unsupported at hmem
        rw [List.mem_filter] at hmem
        exact hmem.1

theorem unsupported_partition_witness :
    (exampleRelease ∈ (DistroInfo.mk [exampleRelease]).unsupported 20180617 →
      exampleRelease.supported_at 20180617 = false ∧
        exampleRelease ∉ (DistroInfo.mk [exampleRelease]).supported 20180617) ∧
    (exampleRelease ∈ (DistroInfo.mk [exampleRelease]).released 20180617 ↔
      (exampleRelease ∈ (DistroInfo.mk [exampleRelease]).supported 20180617 ∧
          exampleRelease.released_at 20180617 = true) ∨
        exampleRelease ∈ (DistroInfo.mk [exampleRelease]).unsupported 20180617) :=
  unsupported_partition (DistroInfo.mk [exampleRelease]) 20180617 exampleRelease

theorem parse_required_str_ok_inv {f : Option String} {s : String}
    (h : parse_required_str f = Except.ok s) : f = some s := by
  cases f with
  | none => exact absurd h (by simp [parse_required_str])
  | some v =>
    simp only [parse_required_str, Except.ok.injEq] at h
    rw [h]

theorem parse_date_field_some_ok_inv {s : String} {od : Option Date}
    (h : parse_date_field (some s) = Except.ok od) :
    ∃ d, parseDate s = some d := by
  simp only [parse_date_field] at h
  split at h
  · rename_i d heq
    exact ⟨d, heq⟩
  · exact absurd h (by simp)

/-- Inversion of the row parser: a successful parse forces the three
required fields to be present (so the row has more than two fields) and
every present date field to parse. -/
theorem parse_record_ok_inv (row : List String) (r : DistroRelease)
    (h : parse_record row = Except.ok r) :
    2 < row.length ∧
      ∀ i, 3 ≤ i → i ≤ 6 → ∀ s, row.get? i = some s →
        ∃ d, parseDate s = some d := by
  unfold parse_record at h
  split at h
  · exact absurd h (by simp)
  rename_i version heq0
  split at h
  · exact absurd h (by simp)
  rename_i codename heq1
  split at h
  · exact absurd h (by simp)
  rename_i series heq2
  split at h
  · exact absurd h (by simp)
  rename_i created heq3
  split at h
  · exact absurd h (by simp)
  rename_i release heq4
  split at h
  · exact absurd h (by simp)
  rename_i eol heq5
  split at h
  · exact absurd h (by simp)
  rename_i eol_server heq6
  refine ⟨?_, ?_⟩
  · obtain ⟨hlt, -⟩ := List.get?_eq_some.mp (parse_required_str_ok_inv heq2)
    exact hlt
  · intro i h3 h6 s hget
    interval_cases i
    · rw [hget] at heq3
      exact parse_date_field_some_ok_inv heq3
    · rw [hget] at heq4
      exact parse_date_field_some_ok_inv heq4
    · rw [hget] at heq5
      exact parse_date_field_some_ok_inv heq5
    · rw [hget] at heq6
      exact parse_date_field_some_ok_inv heq6

/-- A row that cannot be parsed poisons the whole load: the loop aborts
with the first error and no release list is produced. -/
theorem parse_records_error_of_mem (records : List (List String))
    (row : List String) (hmem : row ∈ records)
    (hrow : ∀ r, parse_record row ≠ Except.ok r) :
    (parse_records records).isOk = false := by
  induction records with
  | nil => cases hmem
  | cons head tail ih =>
    rcases List.mem_cons.mp hmem with rfl | htail
    · unfold parse_records
      cases hpr : parse_record row with
      | error e => simp [Except.isOk, Except.toBool]
      | ok r => exact absurd hpr (hrow r)
    · unfold parse_records
      cases hpr : parse_record head with
      | error e => simp [Except.isOk, Except.toBool]
      | ok r =>
        cases hres : parse_records tail with
        | error e => simp [Except.isOk, Except.toBool]
        | ok rs =>
          have hok := ih htail
          rw [hres] at hok
          exact absurd hok (by simp [Except.isOk, Except.toBool])

theorem from_csv_reader_isOk_eq (records : List (List String)) :
    (DistroInfo.from_csv_reader records).isOk = (parse_records records).isOk := by
  unfold DistroInfo.from_csv_reader
  cases h : parse_records records <;> simp [Except.isOk, Except.toBool]

theorem parseDate_empty : parseDate "" = none := rfl

/-- C2 (amended): the load fails, returning an error and no table, whenever
some row is missing one of the three required fields — is too short to have
a `version`, `codename`, and `series` entry — or has a present date field
that does not parse as `YYYY-MM-DD`; a required field that is present but
empty is, however, accepted as the empty string
(`from_csv_reader_accepts_empty_required`). -/
theorem from_csv_reader_fails_on_bad_row (records : List (List String))
    (row : List String) (hmem : row ∈ records)
    (hbad : row.length ≤ 2 ∨
      ∃ i s, 3 ≤ i ∧ i ≤ 6 ∧ row.get? i = some s ∧ parseDate s = none) :
    (DistroInfo.from_csv_reader records).isOk = false := by
  rw [from_csv_reader_isOk_eq]
  apply parse_records_error_of_mem records row hmem
  intro r hok
  obtain ⟨hlen, hdates⟩ := parse_record_ok_inv row r hok
  rcases hbad with hshort | ⟨i, s, h3, h6, hget, hnone⟩
  · omega
  · obtain ⟨d, hd⟩ := hdates i h3 h6 s hget
    rw [hd] at hnone
    exact Option.noConfusion hnone

theorem from_csv_reader_fails_on_bad_row_witness :
    ["10", "Buster"] ∈ [["10", "Buster"]] ∧
    (["10", "Buster"] : List String).length ≤ 2 ∧
    (DistroInfo.from_csv_reader [["10", "Buster"]]).isOk = false :=
  ⟨by decide, by decide,
    from_csv_reader_fails_on_bad_row [["10", "Buster"]] ["10", "Buster"]
      (by decide) (Or.inl (by decide))⟩

/-- C2 counterexample: a row whose `series` field is present but empty loads
successfully — `parse_required_str` rejects only missing fields, never empty
ones — refuting the "or empty" half of the claim.  (The sid row of the real
debian.csv relies on this: its `version` field is present and empty.) -/
theorem from_csv_reader_accepts_empty_required :
    DistroInfo.from_csv_reader [["1.1", "Buzz", ""]] =
      Except.ok (DistroInfo.mk [⟨"1.1", "Buzz", "", none, none, none, none⟩]) :=
  rfl

/-- C3 (amended): a date column that is absent from a row loads as `none`
and a present `YYYY-MM-DD` field loads as its date, but a date field that
is present and empty is a chrono parse error that fails the whole load —
it is not treated as an absent optional. -/
theorem date_fields_loaded (v c s s3 s4 s5 s6 : String) (d3 d4 d5 d6 : Date)
    (h3 : parseDate s3 = some d3) (h4 : parseDate s4 = some d4)
    (h5 : parseDate s5 = some d5) (h6 : parseDate s6 = some d6) :
    DistroInfo.from_csv_reader [[v, c, s]] =
      Except.ok (DistroInfo.mk [⟨v, c, s, none, none, none, none⟩]) ∧
    DistroInfo.from_csv_reader [[v, c, s, s3, s4, s5, s6]] =
      Except.ok (DistroInfo.mk
        [⟨v, c, s, some d3, some d4, some d5, some d6⟩]) ∧
    (DistroInfo.from_csv_reader [[v, c, s, ""]]).isOk = false := by
  refine ⟨rfl, ?_, rfl⟩
  unfold DistroInfo.from_csv_reader parse_records parse_record
  simp [parse_required_str, parse_date_field, h3, h4, h5, h6, parse_records]

theorem date_fields_loaded_witness :
    parseDate "2004-03-05" = some 20040305 ∧
    parseDate "2004-10-20" = some 20041020 ∧
    parseDate "2006-04-30" = some 20060430 ∧
    parseDate "2011-06-01" = some 20110601 ∧
    (DistroInfo.from_csv_reader [["4.10", "Warty Warthog", "warty"]] =
      Except.ok (DistroInfo.mk
        [⟨"4.10", "Warty Warthog", "warty", none, none, none, none⟩]) ∧
    DistroInfo.from_csv_reader
        [["4.10", "Warty Warthog", "warty",
          "2004-03-05", "2004-10-20", "2006-04-30", "2011-06-01"]] =
      Except.ok (DistroInfo.mk [⟨"4.10", "Warty Warthog", "warty",
        some 20040305, some 20041020, some 20060430, some 20110601⟩]) ∧
    (DistroInfo.from_csv_reader
        [["4.10", "Warty Warthog", "warty", ""]]).isOk = false) :=
  ⟨by decide, by decide, by decide, by decide,
    date_fields_loaded "4.10" "Warty Warthog" "warty"
      "2004-03-05" "2004-10-20" "2006-04-30" "2011-06-01"
      20040305 20041020 20060430 20110601
      (by decide) (by decide) (by decide) (by decide)⟩

/-- C3 counterexample: a row whose fourth (created) field is present but
empty makes the load fail — the claim says it should load with `created`
absent. -/
theorem from_csv_reader_rejects_empty_date_field :
    (DistroInfo.from_csv_reader [["1.1", "Buzz", "buzz", ""]]).isOk = false :=
  rfl
